import Mathlib

/-!
Verification model (shallow embedding) of the proboards-scraper orchestration
core: the database upsert layer (`database/database.py`), the guest resolver,
the dual-queue persistence consumer (`scraper_manager.py`), the rate limiter,
the image downloader (`http_requests.py`), and the traversal emission order of
`scraper.py` (scrape_poll / scrape_thread / scrape_board).

Conventions: Python ints are `Int` (arbitrary precision, like Python), Python
floats used only as delay durations are modelled as `Rat` (the program only
compares them to zero for truthiness and passes them to sleep), `None` is
`Option.none`, byte strings are `List Nat`, and a SQLAlchemy table is a
`List` of row records in insertion order (queries return the first match in
that order, which is how the single-file SQLite access pattern of this code
behaves).
-/

namespace PBS

/-! ## Database rows (database/schema.py), restricted to the fields the
    modelled operations read or write. -/

/-- User row: `insert_guest` touches only the id and name columns. -/
structure UserRow where
  id : Int
  name : String
  deriving Repr, DecidableEq

/-- Moderator row: composite natural key (board_id, user_id). -/
structure ModeratorRec where
  user_id : Int
  board_id : Int
  deriving Repr, DecidableEq

/-- PollVoter row: composite natural key (poll_id, user_id). -/
structure PollVoterRec where
  poll_id : Int
  user_id : Int
  deriving Repr, DecidableEq

/-- Avatar row: composite natural key (image_id, user_id). -/
structure AvatarRec where
  image_id : Int
  user_id : Int
  deriving Repr, DecidableEq

/-- Image row: `id` is the store-assigned autoincrement key (absent until the
    engine assigns it; assignment itself happens inside SQLAlchemy, outside
    this repository's code, so it stays `none` in the model). -/
structure ImageRec where
  id : Option Int
  description : Option String
  filename : Option String
  md5_hash : Option String
  size : Option Int
  url : String
  deriving Repr, DecidableEq

/-! ## Database.insert (database/database.py lines 117-222)

`insert` queries the table for the first row satisfying the caller's filters
(default: same id as the candidate), inserts the candidate when no row
matches, and otherwise either returns the existing row untouched or, in
update mode, overwrites the existing row's fields with the candidate's. -/

/-- Replace the first element satisfying p by x (models the in-place
    `setattr` loop of the update branch: the matched row's attributes all
    become the candidate's). -/
def replaceFirst {α : Type} (p : α → Bool) (x : α) : List α → List α
  | [] => []
  | a :: as => if p a then x :: as else a :: replaceFirst p x as

/-- Database.insert: returns (inserted code, resulting stored record, new
    table state). Codes: 0 = already present and untouched, 1 = inserted,
    2 = present and updated. `keyMatch` is the filter predicate built by the
    wrapper from the candidate (natural key). -/
def dbInsert {α : Type} (keyMatch : α → Bool) (update : Bool) (obj : α)
    (store : List α) : Nat × α × List α :=
  match store.find? keyMatch with
  | none => (1, obj, store ++ [obj])
  | some result =>
      if update then (2, obj, replaceFirst keyMatch obj store)
      else (0, result, store)

/-- Database.insert_user: default filter, i.e. the id column. -/
def insert_user (user : UserRow) (update : Bool) (store : List UserRow) :
    UserRow × List UserRow :=
  let r := dbInsert (fun row => row.id == user.id) update user store
  (r.2.1, r.2.2)

/-- Database.insert_moderator: composite filter (user_id, board_id). -/
def insert_moderator (m : ModeratorRec) (update : Bool)
    (store : List ModeratorRec) : ModeratorRec × List ModeratorRec :=
  let r := dbInsert
    (fun row => row.user_id == m.user_id && row.board_id == m.board_id)
    update m store
  (r.2.1, r.2.2)

/-- Database.insert_poll_voter: composite filter (poll_id, user_id). -/
def insert_poll_voter (v : PollVoterRec) (update : Bool)
    (store : List PollVoterRec) : PollVoterRec × List PollVoterRec :=
  let r := dbInsert
    (fun row => row.poll_id == v.poll_id && row.user_id == v.user_id)
    update v store
  (r.2.1, r.2.2)

/-- Database.insert_avatar: composite filter (image_id, user_id). -/
def insert_avatar (a : AvatarRec) (update : Bool)
    (store : List AvatarRec) : AvatarRec × List AvatarRec :=
  let r := dbInsert
    (fun row => row.image_id == a.image_id && row.user_id == a.user_id)
    update a store
  (r.2.1, r.2.2)

/-- Filter used by Database.insert_image: search by md5 hash when the image
    was downloaded, else by source URL (database.py lines 296-303). -/
def imageKey (img : ImageRec) : ImageRec → Bool :=
  match img.md5_hash with
  | some h => fun row => row.md5_hash == some h
  | none => fun row => row.url == img.url

/-- Database.insert_image. -/
def insert_image (img : ImageRec) (update : Bool)
    (store : List ImageRec) : ImageRec × List ImageRec :=
  let r := dbInsert (imageKey img) update img store
  (r.2.1, r.2.2)

/-! ## Guest resolver (database/database.py lines 477-521 and
    scraper_manager.py lines 140-159) -/

/-- Database.insert_guest: query all users with negative id, look the guest
    up by exact name among them; reuse the found id, else allocate
    (min of 0 and the existing negative ids) - 1; then run the generic
    `insert` keyed on the chosen id. Returns the resulting stored row. -/
def db_insert_guest (guest : UserRow) (store : List UserRow) :
    UserRow × List UserRow :=
  let query := store.filter (fun row => row.id < 0)
  match query.find? (fun row => row.name == guest.name) with
  | some this_guest =>
      let guest1 : UserRow := { guest with id := this_guest.id }
      let r := dbInsert (fun row => row.id == guest1.id) false guest1 store
      (r.2.1, r.2.2)
  | none =>
      let lowest_id := query.foldl (fun acc row => min row.id acc) 0
      let guest1 : UserRow := { guest with id := lowest_id - 1 }
      let r := dbInsert (fun row => row.id == guest1.id) false guest1 store
      (r.2.1, r.2.2)

/-- ScraperManager.insert_guest: builds the dict with id -1 and the given
    name, calls Database.insert_guest, and returns the resulting row's id. -/
def mgr_insert_guest (name : String) (store : List UserRow) :
    Int × List UserRow :=
  let guest : UserRow := { id := -1, name := name }
  let r := db_insert_guest guest store
  (r.1.id, r.2)

/-! ## Content-queue items (the dicts pushed by scraper.py, tagged by their
    "type" key; scraper_manager.py lines 210-221 dispatch on that tag). -/

/-- Thread dict built in scrape_thread (scraper.py lines 388-399). -/
structure ThreadRec where
  announcement : Bool
  board_id : Int
  id : Int
  locked : Bool
  sticky : Bool
  title : String
  url : String
  user_id : Int
  views : Int
  deriving Repr, DecidableEq

/-- Post dict built in scrape_thread (scraper.py lines 443-453). -/
structure PostRec where
  id : Int
  date : String
  edit_user_id : Option Int
  last_edited : Option String
  message : String
  thread_id : Int
  url : String
  user_id : Int
  deriving Repr, DecidableEq

/-- Poll dict built in scrape_poll (scraper.py lines 264-268). -/
structure PollRec where
  id : Int
  name : String
  deriving Repr, DecidableEq

/-- Poll option dict built in scrape_poll (scraper.py lines 286-292). -/
structure PollOptionRec where
  id : Int
  poll_id : Int
  name : String
  votes : Int
  deriving Repr, DecidableEq

/-- Board dict built in scrape_board (scraper.py lines 550-559). -/
structure BoardRec where
  category_id : Int
  description : Option String
  id : Int
  name : String
  parent_id : Option Int
  password_protected : Option Bool
  url : String
  deriving Repr, DecidableEq

/-- Category dict built in scrape_content (scraper.py lines 688-693). -/
structure CategoryRec where
  id : Int
  name : String
  deriving Repr, DecidableEq

/-- Shoutbox post dict built in scrape_shoutbox (scraper.py lines 627-633). -/
structure ShoutboxPostRec where
  id : Int
  date : String
  message : String
  user_id : Int
  deriving Repr, DecidableEq

/-- A content-queue item; the constructor is the "type" tag that
    ScraperManager.run dispatches on (all ten tags appear in the
    type_to_insert_func table). -/
inductive CItem where
  | board (b : BoardRec)
  | category (c : CategoryRec)
  | image (i : ImageRec)
  | moderator (m : ModeratorRec)
  | poll (p : PollRec)
  | pollOption (o : PollOptionRec)
  | pollVoter (v : PollVoterRec)
  | post (p : PostRec)
  | shoutboxPost (s : ShoutboxPostRec)
  | thread (t : ThreadRec)
  deriving Repr, DecidableEq

/-! ## Persistence consumer (ScraperManager.run, scraper_manager.py
    lines 176-227)

A queue is a `List (Option item)` in arrival order; `none` is the sentinel.
The run loop pops items one at a time, so its observable behaviour is the
ordered trace of calls it makes. If a queue runs out before its sentinel
arrives, the `await queue.get()` blocks forever; with driver = none, the
final `self.driver.quit()` raises AttributeError on the NoneType. -/

/-- One observable action of the consumer. -/
inductive Event where
  | userInsert (u : UserRow)
  | contentInsert (c : CItem)
  | sessionClose
  | driverQuit
  deriving Repr, DecidableEq

/-- How a run ends. -/
inductive RunOutcome where
  | completed
  | blockedOnUserQueue
  | blockedOnContentQueue
  | attrErrorDriverQuit
  deriving Repr, DecidableEq

/-- Pop items until the sentinel: returns the items inserted (in pop order)
    and whether the sentinel was actually reached. -/
def drainLoop {α : Type} : List (Option α) → List α × Bool
  | [] => ([], false)
  | none :: _ => ([], true)
  | some a :: rest =>
      let r := drainLoop rest
      (a :: r.1, r.2)

/-- ScraperManager.run: drain the user queue first when one is configured
    (popped users go straight to Database.insert_user), then the content
    queue (each item dispatched to its tag's insert function), then close
    the aiohttp session and call driver.quit(). -/
def runConsumer (user_queue : Option (List (Option UserRow)))
    (content_queue : List (Option CItem)) (driver : Option Unit) :
    List Event × RunOutcome :=
  let userPhase : List Event × Bool :=
    match user_queue with
    | none => ([], true)
    | some q =>
        let r := drainLoop q
        (r.1.map Event.userInsert, r.2)
  if userPhase.2 = false then (userPhase.1, RunOutcome.blockedOnUserQueue)
  else
    let c := drainLoop content_queue
    let evs := userPhase.1 ++ c.1.map Event.contentInsert
    if c.2 = false then (evs, RunOutcome.blockedOnContentQueue)
    else
      match driver with
      | some _ =>
          (evs ++ [Event.sessionClose, Event.driverQuit], RunOutcome.completed)
      | none =>
          (evs ++ [Event.sessionClose], RunOutcome.attrErrorDriverQuit)

/-- ScraperManager.__init__ with respect to the driver argument: a missing
    driver is accepted and only logs a warning (scraper_manager.py
    lines 59-65). Returns the stored driver and the warning messages. -/
def mkManagerDriver (driver : Option Unit) : Option Unit × List String :=
  match driver with
  | none =>
      (none, ["Polls cannot be scraped without setting a Chrome webdriver"])
  | some d => (some d, [])

/-! ## Rate limiter (ScraperManager._delay / get_source / download_image,
    scraper_manager.py lines 86-138)

Delay times are Python floats or None; only their truthiness and value
matter, so they are `Option Rat`. `asyncio.sleep(None)` raises TypeError
(None is not comparable to 0), and `count % threshold` with threshold 0
raises ZeroDivisionError; both are modelled as errors. Python's % is
floored, i.e. `Int.fmod`. -/

/-- Python truthiness of an optional float: None and 0.0 are falsy. -/
def pyTruthy : Option Rat → Bool
  | none => false
  | some q => !(q == 0)

/-- Errors the delay path can raise. -/
inductive DelayErr where
  | typeErrorSleepNone
  | zeroDivision
  deriving Repr, DecidableEq

/-- ScraperManager._delay: returns the slept duration (`none` meaning the
    early return with no sleep at all) or the raised error. -/
def pyDelay (request_threshold : Option Int)
    (short_delay_time long_delay_time : Option Rat) (request_count : Nat) :
    Except DelayErr (Option Rat) :=
  if pyTruthy short_delay_time = false ∧ pyTruthy long_delay_time = false then
    Except.ok none
  else
    match request_threshold, pyTruthy long_delay_time with
    | some t, true =>
        if t == 0 then Except.error DelayErr.zeroDivision
        else
          let delay :=
            if Int.fmod request_count t == t - 1 then long_delay_time
            else short_delay_time
          match delay with
          | none => Except.error DelayErr.typeErrorSleepNone
          | some d => Except.ok (some d)
    | _, _ =>
        match short_delay_time with
        | none => Except.error DelayErr.typeErrorSleepNone
        | some d => Except.ok (some d)

/-- ScraperManager.get_source: delay, then increment the request counter and
    issue the request. Returns (slept duration, new counter). -/
def getSourceStep (request_threshold : Option Int)
    (short_delay_time long_delay_time : Option Rat) (request_count : Nat) :
    Except DelayErr (Option Rat × Nat) :=
  (pyDelay request_threshold short_delay_time long_delay_time
    request_count).map (fun d => (d, request_count + 1))

/-- Python's substring containment test (the "in" operator on str). -/
def strContains (haystack needle : String) : Bool :=
  (haystack.splitOn needle).length != 1

/-- ScraperManager.download_image: the delay and counter increment happen
    only for URLs on the target site ("proboards.com" in url). -/
def downloadImageStep (request_threshold : Option Int)
    (short_delay_time long_delay_time : Option Rat) (request_count : Nat)
    (url : String) : Except DelayErr (Option Rat × Nat) :=
  if strContains url "proboards.com" then
    getSourceStep request_threshold short_delay_time long_delay_time
      request_count
  else
    Except.ok (none, request_count)

/-! ## Image downloader (http_requests.py lines 171-267)

The function body is a try/except/else with `finally: return ret`: the
return in the finally clause swallows every exception (only
ClientConnectorError is caught explicitly, but a timeout or any other error
raised in the try or else blocks is also discarded by the finally return),
so the call always returns the `ret` dict as mutated so far. File hashing
(hashlib.md5) and the stdlib imghdr tests are external collaborators and
enter as function parameters; the repository's own `test_ico` check, which
it appends to imghdr.tests, is modelled from its source. The destination
directory is the list of filenames already on disk; writes performed are
returned alongside the result. -/

/-- Outcome of `await session.get(url, timeout=45)` and the body read. -/
inductive NetResult where
  | connError
  | uncaughtExn
  | resp (status : Int) (body : List Nat)
  deriving Repr, DecidableEq

/-- The "status" part of the returned dict. -/
structure DLStatus where
  get : Option Int
  existsOnDisk : Option Bool
  valid : Option Bool
  deriving Repr, DecidableEq

/-- The "image" part of the returned dict. -/
structure DLImage where
  url : String
  filename : Option String
  md5_hash : Option String
  size : Option Nat
  deriving Repr, DecidableEq

/-- The dict returned by download_image. -/
structure DLRet where
  status : DLStatus
  image : DLImage
  deriving Repr, DecidableEq

/-- The repository's test_ico imghdr check (http_requests.py lines 18-28):
    header starts with 00 00 and bytes 2:4 are 01 00 or 02 00. -/
def test_ico (h : List Nat) : Option String :=
  if h.take 2 == [0, 0] &&
      ((h.drop 2).take 2 == [1, 0] || (h.drop 2).take 2 == [2, 0]) then
    some "ico"
  else
    none

/-- imghdr.what after this module appended test_ico: the stdlib tests run
    first, then test_ico. -/
def imghdrWhat (builtinTests : List Nat → Option String) (h : List Nat) :
    Option String :=
  match builtinTests h with
  | some ft => some ft
  | none => test_ico h

/-- Scheme completion applied at the top of download_image: protocol-relative
    URLs get the https scheme. -/
def completeUrl (url : String) : String :=
  if url.startsWith "//" then "https:" ++ url else url

/-- download_image. Returns the result dict and the list of
    (filename, bytes) files written. -/
def download_image (md5hex : List Nat → String)
    (builtinTests : List Nat → Option String) (dstDir : List String)
    (url : String) (net : NetResult) : DLRet × List (String × List Nat) :=
  let url := completeUrl url
  let ret : DLRet :=
    { status := { get := none, existsOnDisk := none, valid := none },
      image := { url := url, filename := none, md5_hash := none,
                 size := none } }
  match net with
  | NetResult.connError => (ret, [])
  | NetResult.uncaughtExn => (ret, [])
  | NetResult.resp status body =>
      let ret := { ret with status := { ret.status with get := some status } }
      if status == 200 then
        let ret :=
          { ret with status := { ret.status with valid := some false } }
        let filetype := imghdrWhat builtinTests body
        let filetype :=
          if filetype == some "jpeg" then some "jpg" else filetype
        match filetype with
        | none => (ret, [])
        | some ft =>
            let img_md5 := md5hex body
            let new_fname := img_md5 ++ "." ++ ft
            let ret :=
              { ret with
                status := { ret.status with valid := some true },
                image := { ret.image with
                  filename := some new_fname,
                  size := some body.length,
                  md5_hash := some img_md5 } }
            if dstDir.contains new_fname then
              ({ ret with status :=
                  { ret.status with existsOnDisk := some true } }, [])
            else
              ({ ret with status :=
                  { ret.status with existsOnDisk := some false } },
               [(new_fname, body)])
      else
        (ret, [])

/-! ## Thread traversal (scrape_poll and scrape_thread, scraper.py
    lines 258-466)

Inputs are the parsed page contents (the DOM-selector extraction itself is
page-format glue outside this model): a thread is its metadata script
values, an optional poll container, and the chain of post pages that
successive next-href fetches return. The next-page target chain is the
`pages` list: the head is the container currently held, fetching the "next"
href yields the following element, and following an enabled next control
when no further page exists is a raise. Pushing onto the asyncio content
queue is recorded in emission order. -/

/-- Who authored a post, as the left panel shows it: a guest span with a
    name, or a user-link href carrying a registered id. -/
inductive AuthorRef where
  | guest (name : String)
  | registered (id : Int)
  deriving Repr, DecidableEq

/-- One tr.post element, parsed. `edited` is the optional edited_by block:
    (last_edited timestamp, edit_user_id). -/
structure PostEntry where
  id : Int
  author : AuthorRef
  date : String
  message : String
  edited : Option (String × Int)
  deriving Repr, DecidableEq

/-- One container-posts page: its posts and whether its next control carries
    the state-disabled class. -/
structure PostPage where
  posts : List PostEntry
  nextDisabled : Bool
  deriving Repr, DecidableEq

/-- One tr of the poll results table. -/
structure OptionEntry where
  id : Int
  name : String
  votes : Int
  deriving Repr, DecidableEq

/-- Parsed poll container and voters modal. -/
structure PollInput where
  name : String
  options : List OptionEntry
  voters : List Int
  deriving Repr, DecidableEq

/-- Parsed thread page: metadata script values, optional poll, post pages. -/
structure ThreadInput where
  site_url : String
  url : String
  id : Int
  board_id : Int
  created_by : Int
  announcement : Bool
  locked : Bool
  sticky : Bool
  views : Int
  title : String
  poll : Option PollInput
  pages : List PostPage
  deriving Repr, DecidableEq

/-- How a traversal call ends: normally, by an uncaught exception, or by
    never terminating (the post while-loop spins forever on a page whose
    posts list is empty, since pages_remaining is only written inside the
    for over posts). -/
inductive SOutcome where
  | ok
  | raised
  | loops
  deriving Repr, DecidableEq

/-- scrape_poll: push the poll dict, then one poll_option dict per results
    row, then one poll_voter dict per voter profile. -/
def scrapePoll (thread_id : Int) (p : PollInput) : List CItem :=
  [CItem.poll { id := thread_id, name := p.name }]
    ++ p.options.map (fun o =>
        CItem.pollOption
          { id := o.id, poll_id := thread_id, name := o.name,
            votes := o.votes })
    ++ p.voters.map (fun v =>
        CItem.pollVoter { poll_id := thread_id, user_id := v })

/-- Mutable locals of the post pagination loop: the container currently
    held, the chain of pages further fetches return, the pages_remaining
    flag, and the user store (mutated by inline guest resolution). -/
structure PostLoopSt where
  cur : PostPage
  rest : List PostPage
  pagesRemaining : Bool
  store : List UserRow
  deriving Repr, DecidableEq

/-- Body of the for loop over one page's posts (scraper.py lines 406-466).
    Each iteration resolves the author (calling the guest resolver inline
    for guests), pushes the post dict, and then runs the next-page check,
    which the source indents inside this for loop: state-disabled clears
    pages_remaining, otherwise the next href is fetched and the held
    container replaced mid-iteration. Returns (emissions, final state,
    completed without raising). -/
def postsFor (site_url : String) (thread_id : Int) :
    List PostEntry → PostLoopSt → List CItem × PostLoopSt × Bool
  | [], st => ([], st, true)
  | e :: es, st =>
      let resolved : Int × List UserRow :=
        match e.author with
        | AuthorRef.guest gname => mgr_insert_guest gname st.store
        | AuthorRef.registered i => (i, st.store)
      let post : PostRec :=
        { id := e.id, date := e.date,
          edit_user_id := e.edited.map (fun x => x.2),
          last_edited := e.edited.map (fun x => x.1),
          message := e.message, thread_id := thread_id,
          url := site_url ++ "/post/" ++ toString e.id,
          user_id := resolved.1 }
      if st.cur.nextDisabled then
        let st1 : PostLoopSt :=
          { st with store := resolved.2, pagesRemaining := false }
        let r := postsFor site_url thread_id es st1
        (CItem.post post :: r.1, r.2.1, r.2.2)
      else
        match st.rest with
        | [] => ([CItem.post post], { st with store := resolved.2 }, false)
        | p :: ps =>
            let st1 : PostLoopSt :=
              { cur := p, rest := ps,
                pagesRemaining := st.pagesRemaining, store := resolved.2 }
            let r := postsFor site_url thread_id es st1
            (CItem.post post :: r.1, r.2.1, r.2.2)

/-- The while pages_remaining loop of scrape_thread. Fuel bounds the number
    of while iterations; scrapeThread passes pages.length + 2, which the
    loop can exhaust only by spinning on an empty posts list, which is also
    reported as `loops` directly. -/
def postsWhile (site_url : String) (thread_id : Int) :
    Nat → PostLoopSt → List CItem × List UserRow × SOutcome
  | 0, st => ([], st.store, SOutcome.loops)
  | fuel + 1, st =>
      if st.pagesRemaining = false then ([], st.store, SOutcome.ok)
      else if st.cur.posts.isEmpty then ([], st.store, SOutcome.loops)
      else
        let r := postsFor site_url thread_id st.cur.posts st
        if r.2.2 = false then (r.1, r.2.1.store, SOutcome.raised)
        else
          let rest := postsWhile site_url thread_id fuel r.2.1
          (r.1 ++ rest.1, rest.2.1, rest.2.2)

/-- The thread dict pushed by scrape_thread (for a non-guest creator). -/
def threadRecOf (t : ThreadInput) : ThreadRec :=
  { announcement := t.announcement, board_id := t.board_id, id := t.id,
    locked := t.locked, sticky := t.sticky, title := t.title, url := t.url,
    user_id := t.created_by, views := t.views }

/-- scrape_thread. In source order: a creator id of 0 (guest) reaches
    source.select("tr.post.first").find(...), which raises AttributeError on
    the ResultSet; then, if the metadata flags a poll, the selenium driver
    is used (raising on a missing driver) and scrape_poll pushes the poll
    data; then the thread dict is pushed; then the post pagination loop
    runs (an empty pages chain means no container-posts div, so the
    title-bar lookup raises before the thread dict is built). -/
def scrapeThread (hasDriver : Bool) (t : ThreadInput)
    (store : List UserRow) : List CItem × List UserRow × SOutcome :=
  if t.created_by == 0 then ([], store, SOutcome.raised)
  else
    let pollEms : Option (List CItem) :=
      match t.poll with
      | none => some []
      | some p => if hasDriver then some (scrapePoll t.id p) else none
    match pollEms with
    | none => ([], store, SOutcome.raised)
    | some pe =>
        match t.pages with
        | [] => (pe, store, SOutcome.raised)
        | cur :: rest =>
            let st0 : PostLoopSt :=
              { cur := cur, rest := rest, pagesRemaining := true,
                store := store }
            let r := postsWhile t.site_url t.id (rest.length + 2) st0
            (pe ++ [CItem.thread (threadRecOf t)] ++ r.1, r.2.1, r.2.2)

/-! ## Board traversal (scrape_board, scraper.py lines 469-607) -/

/-- One container-threads page of a board. -/
structure ThreadListPage where
  threads : List ThreadInput
  nextDisabled : Bool
  deriving Repr, DecidableEq

mutual
/-- A board page: the parsed board dict fields, the moderators modal
    (`some ids` when the moderators-link anchor is present), sub-board rows,
    and the chain of thread-listing pages ([] when there is no
    container-threads div). -/
inductive BoardTree where
  | node (info : BoardRec) (moderatorsLink : Option (List Int))
      (subs : BoardForest) (threadPages : List ThreadListPage)

/-- The sub-board rows of a board page, in page order. -/
inductive BoardForest where
  | nil
  | cons (b : BoardTree) (rest : BoardForest)
end

/-- Sequence two traversal steps: the continuation runs only when the first
    step finished normally; emissions accumulate in order either way. -/
def seqEms (r : List CItem × List UserRow × SOutcome)
    (k : List UserRow → List CItem × List UserRow × SOutcome) :
    List CItem × List UserRow × SOutcome :=
  match r with
  | (ems, store, SOutcome.ok) =>
      let r2 := k store
      (ems ++ r2.1, r2.2.1, r2.2.2)
  | other => other

/-- The for loop over one thread-listing page's rows: each row's thread URL
    is traversed by scrape_thread before the next row. -/
def boardThreadsFor (hasDriver : Bool) :
    List ThreadInput → List UserRow → List CItem × List UserRow × SOutcome
  | [], store => ([], store, SOutcome.ok)
  | t :: ts, store =>
      seqEms (scrapeThread hasDriver t store) (boardThreadsFor hasDriver ts)

/-- The while pages_remaining loop over a board's thread-listing pages
    (scraper.py lines 578-607). Unlike the post loop, the next-page check
    sits after the for loop, so each page is finished before moving on;
    an enabled next control with no further page to fetch is a raise. -/
def boardPagesLoop (hasDriver : Bool) :
    List ThreadListPage → List UserRow →
    List CItem × List UserRow × SOutcome
  | [], store => ([], store, SOutcome.ok)
  | page :: rest, store =>
      seqEms (boardThreadsFor hasDriver page.threads store) (fun store2 =>
        if page.nextDisabled then ([], store2, SOutcome.ok)
        else
          match rest with
          | [] => ([], store2, SOutcome.raised)
          | _ :: _ => boardPagesLoop hasDriver rest store2)

mutual
/-- scrape_board. In source order: if the moderators-link anchor is present
    the selenium driver opens the modal (raising on a missing driver) and
    one moderator dict per profile is pushed; then the board dict is
    pushed; then each sub-board is traversed recursively; then the
    thread-listing pages are walked. -/
def scrapeBoardT (hasDriver : Bool) :
    BoardTree → List UserRow → List CItem × List UserRow × SOutcome
  | BoardTree.node info modsLink subs pages, store =>
      let modPart : Option (List CItem) :=
        match modsLink with
        | none => some []
        | some l =>
            if hasDriver then
              some (l.map (fun u =>
                CItem.moderator { user_id := u, board_id := info.id }))
            else none
      match modPart with
      | none => ([], store, SOutcome.raised)
      | some modEms =>
          seqEms
            (seqEms (modEms ++ [CItem.board info], store, SOutcome.ok)
              (fun s => scrapeForest hasDriver subs s))
            (fun s => boardPagesLoop hasDriver pages s)

/-- The for loop over sub-board rows: each sub-board URL is traversed by
    scrape_board before the next row. -/
def scrapeForest (hasDriver : Bool) :
    BoardForest → List UserRow → List CItem × List UserRow × SOutcome
  | BoardForest.nil, store => ([], store, SOutcome.ok)
  | BoardForest.cons b rest, store =>
      seqEms (scrapeBoardT hasDriver b store)
        (fun s => scrapeForest hasDriver rest s)
end

/-! ## Derived definitions used by the statements below -/

/-- The id Database.insert_guest allocates when the name is new:
    (minimum of 0 and the existing negative ids) - 1. -/
def guestNewId (store : List UserRow) : Int :=
  (store.filter (fun row => row.id < 0)).foldl
    (fun acc row => min row.id acc) 0 - 1

/-- The moderator items scrape_board pushes for a board page. -/
def modItems (info : BoardRec) (modsLink : Option (List Int)) : List CItem :=
  match modsLink with
  | none => []
  | some l => l.map (fun u => CItem.moderator { user_id := u, board_id := info.id })

/-- The poll items scrape_thread pushes for a thread page. -/
def pollEmsOf (t : ThreadInput) : List CItem :=
  match t.poll with
  | none => []
  | some p => scrapePoll t.id p

/-- x occurs strictly before an occurrence of y in l. -/
def precedesIn {α : Type} (x y : α) (l : List α) : Prop :=
  ∃ l1 l2, l = l1 ++ x :: l2 ∧ y ∈ l2

/-- The events the consumer emits while shutting down, given the driver. -/
def shutdownEvents : Option Unit → List Event
  | some _ => [Event.sessionClose, Event.driverQuit]
  | none => [Event.sessionClose]

/-- The outcome of the consumer's shutdown step, given the driver. -/
def shutdownOutcome : Option Unit → RunOutcome
  | some _ => RunOutcome.completed
  | none => RunOutcome.attrErrorDriverQuit

/-! ## Concrete page inputs used by counterexamples and witnesses -/

/-- A thread page containing a poll, for exercising scrape_thread. -/
def pollThreadInput : ThreadInput :=
  { site_url := "s", url := "u", id := 7, board_id := 2, created_by := 3,
    announcement := false, locked := false, sticky := false, views := 5,
    title := "T",
    poll := some { name := "Q",
                   options := [{ id := 9, name := "A", votes := 1 }],
                   voters := [4] },
    pages := [{ posts := [{ id := 11, author := AuthorRef.registered 3,
                            date := "d", message := "m", edited := none }],
                nextDisabled := true }] }

/-- A post row authored by registered user 3, with the given post id. -/
def mkPostEntry (i : Int) : PostEntry :=
  { id := i, author := AuthorRef.registered 3, date := "d", message := "m",
    edited := none }

/-- The spec's two-page thread scenario: page 1 holds posts 101 and 102 with
    an enabled next control, page 2 holds post 103 with a disabled one. -/
def twoPageThreadInput : ThreadInput :=
  { site_url := "s", url := "u", id := 50, board_id := 2, created_by := 3,
    announcement := false, locked := false, sticky := false, views := 9,
    title := "T", poll := none,
    pages := [{ posts := [mkPostEntry 101, mkPostEntry 102],
                nextDisabled := false },
              { posts := [mkPostEntry 103], nextDisabled := true }] }

/-- The post dict scrape_thread would build for mkPostEntry i in
    twoPageThreadInput. -/
def mkPostRec (i : Int) : PostRec :=
  { id := i, date := "d", edit_user_id := none, last_edited := none,
    message := "m", thread_id := 50, url := "s" ++ "/post/" ++ toString i,
    user_id := 3 }

/-- A board page listing one moderator (user 7). -/
def modBoardInfo : BoardRec :=
  { category_id := 1, description := some "d", id := 3, name := "B",
    parent_id := none, password_protected := none, url := "u" }

/-- The moderated board as a leaf board tree. -/
def modBoardTree : BoardTree :=
  BoardTree.node modBoardInfo (some [7]) BoardForest.nil []

/-- A board tree A with sub-board B with sub-board C, no moderators, no
    threads (the hierarchy-ordering scenario of the spec). -/
def chainBoardTree (a b c : BoardRec) : BoardTree :=
  BoardTree.node a none
    (BoardForest.cons
      (BoardTree.node b none
        (BoardForest.cons (BoardTree.node c none BoardForest.nil [])
          BoardForest.nil) [])
      BoardForest.nil) []

/-! ## Shared lemmas -/

theorem replaceFirst_length {α : Type} (p : α → Bool) (x : α)
    (l : List α) : (replaceFirst p x l).length = l.length := by
  induction l with
  | nil => rfl
  | cons a as ih =>
      simp only [replaceFirst]
      by_cases h : p a
      · simp [h]
      · simp [h, ih]

theorem mem_replaceFirst {α : Type} (p : α → Bool) (x : α) (l : List α)
    (r : α) (h : l.find? p = some r) : x ∈ replaceFirst p x l := by
  induction l with
  | nil => simp at h
  | cons a as ih =>
      by_cases hpa : p a = true
      · simp [replaceFirst, hpa]
      · rw [List.find?_cons_of_neg _ hpa] at h
        simp [replaceFirst, hpa, ih h]

theorem foldl_min_le_init (l : List UserRow) (init : Int) :
    l.foldl (fun acc row => min row.id acc) init ≤ init := by
  induction l generalizing init with
  | nil => simp
  | cons a as ih =>
      simp only [List.foldl_cons]
      exact le_trans (ih (min a.id init)) (min_le_right _ _)

theorem foldl_min_le_mem (l : List UserRow) (init : Int) (r : UserRow)
    (h : r ∈ l) : l.foldl (fun acc row => min row.id acc) init ≤ r.id := by
  induction l generalizing init with
  | nil => cases h
  | cons a as ih =>
      simp only [List.foldl_cons]
      rcases List.mem_cons.mp h with rfl | hmem
      · exact le_trans (foldl_min_le_init as _) (min_le_left _ _)
      · exact ih _ hmem

theorem guestNewId_neg (store : List UserRow) : guestNewId store < 0 := by
  have := foldl_min_le_init (store.filter (fun row => row.id < 0)) 0
  unfold guestNewId
  omega

theorem guestNewId_not_mem (store : List UserRow) :
    ∀ r ∈ store, r.id ≠ guestNewId store := by
  intro r hr
  by_cases hneg : r.id < 0
  · have hrq : r ∈ store.filter (fun row => row.id < 0) :=
      List.mem_filter.mpr ⟨hr, by simpa using hneg⟩
    have := foldl_min_le_mem (store.filter (fun row => row.id < 0)) 0 r hrq
    unfold guestNewId
    omega
  · have := foldl_min_le_init (store.filter (fun row => row.id < 0)) 0
    unfold guestNewId
    omega

/-! ## C5: the upsert contract -/

/-- C5: Database.insert queries the store by the natural-key filter the
    wrapper builds (default: id; composite pair for Moderator, PollVoter,
    Avatar; md5-hash-or-URL for Image); when no row matches it appends the
    candidate and reports code 1; when a row matches it either leaves the
    store untouched and reports code 0 or, in update mode, overwrites the
    matched row with the candidate and reports code 2; it returns the
    resulting stored record, and re-insertion of an existing key leaves the
    row count unchanged. -/
theorem c5_upsert_contract :
    (∀ (α : Type) (key : α → Bool) (upd : Bool) (obj : α) (store : List α),
      (store.find? key = none →
        dbInsert key upd obj store = (1, obj, store ++ [obj]))
      ∧ (∀ r, store.find? key = some r →
          dbInsert key false obj store = (0, r, store))
      ∧ (∀ r, store.find? key = some r →
          dbInsert key true obj store = (2, obj, replaceFirst key obj store)
            ∧ (replaceFirst key obj store).length = store.length)
      ∧ ((∃ r ∈ store, key r = true) →
          ((dbInsert key upd obj store).2.2).length = store.length)
      ∧ (dbInsert key upd obj store).2.1 ∈ (dbInsert key upd obj store).2.2)
    ∧ (∀ (user : UserRow) (upd : Bool) (store : List UserRow),
        insert_user user upd store
          = ((dbInsert (fun row => row.id == user.id) upd user store).2.1,
             (dbInsert (fun row => row.id == user.id) upd user store).2.2))
    ∧ (∀ (m : ModeratorRec) (upd : Bool) (store : List ModeratorRec),
        insert_moderator m upd store
          = ((dbInsert (fun row => row.user_id == m.user_id
                && row.board_id == m.board_id) upd m store).2.1,
             (dbInsert (fun row => row.user_id == m.user_id
                && row.board_id == m.board_id) upd m store).2.2))
    ∧ (∀ (v : PollVoterRec) (upd : Bool) (store : List PollVoterRec),
        insert_poll_voter v upd store
          = ((dbInsert (fun row => row.poll_id == v.poll_id
                && row.user_id == v.user_id) upd v store).2.1,
             (dbInsert (fun row => row.poll_id == v.poll_id
                && row.user_id == v.user_id) upd v store).2.2))
    ∧ (∀ (img : ImageRec) (h : String), img.md5_hash = some h →
        imageKey img = fun row => row.md5_hash == some h)
    ∧ (∀ img : ImageRec, img.md5_hash = none →
        imageKey img = fun row => row.url == img.url) := by
  refine ⟨?_, ?_, ?_, ?_, ?_, ?_⟩
  · intro α key upd obj store
    refine ⟨?_, ?_, ?_, ?_, ?_⟩
    · intro h
      simp [dbInsert, h]
    · intro r h
      simp [dbInsert, h]
    · intro r h
      exact ⟨by simp [dbInsert, h], replaceFirst_length key obj store⟩
    · rintro ⟨r, hr, hkr⟩
      have hsome : ∃ a, store.find? key = some a :=
        Option.isSome_iff_exists.mp (List.find?_isSome.mpr ⟨r, hr, hkr⟩)
      obtain ⟨a, ha⟩ := hsome
      cases upd <;> simp [dbInsert, ha, replaceFirst_length]
    · cases hf : store.find? key with
      | none =>
          simp [dbInsert, hf]
      | some r =>
          cases upd with
          | false =>
              simpa [dbInsert, hf] using List.mem_of_find?_eq_some hf
          | true =>
              simpa [dbInsert, hf] using mem_replaceFirst key obj store r hf
  · intro user upd store
    rfl
  · intro m upd store
    rfl
  · intro v upd store
    rfl
  · intro img h hmd5
    unfold imageKey
    rw [hmd5]
  · intro img hmd5
    unfold imageKey
    rw [hmd5]

/-- C5 witness: the contract evaluated at a concrete user store, with the
    hypotheses discharged at that input. -/
theorem c5_upsert_contract_witness :
    dbInsert (fun row : UserRow => row.id == 4) false { id := 4, name := "n" }
      [{ id := 4, name := "old" }]
      = (0, { id := 4, name := "old" }, [{ id := 4, name := "old" }]) :=
  (c5_upsert_contract.1 UserRow (fun row => row.id == 4) false
    { id := 4, name := "n" } [{ id := 4, name := "old" }]).2.1
    { id := 4, name := "old" } (by decide)

/-! ## C2 / C9: the guest resolver -/

theorem db_insert_guest_of_find?_none (guest : UserRow)
    (store : List UserRow)
    (h : (store.filter (fun row => row.id < 0)).find?
      (fun row => row.name == guest.name) = none) :
    db_insert_guest guest store
      = ({ id := guestNewId store, name := guest.name },
         store ++ [{ id := guestNewId store, name := guest.name }]) := by
  have hfind : store.find?
      (fun row => row.id == guestNewId store) = none := by
    rw [List.find?_eq_none]
    intro x hx
    simpa using guestNewId_not_mem store x hx
  simp only [db_insert_guest, h, dbInsert, guestNewId] at *
  simp [hfind]

theorem db_insert_guest_of_find?_some (guest g0 : UserRow)
    (store : List UserRow)
    (h : (store.filter (fun row => row.id < 0)).find?
      (fun row => row.name == guest.name) = some g0) :
    (db_insert_guest guest store).2 = store
    ∧ (db_insert_guest guest store).1.id = g0.id
    ∧ g0.id < 0 := by
  have hg0mem : g0 ∈ store.filter (fun row => row.id < 0) :=
    List.mem_of_find?_eq_some h
  have hg0neg : g0.id < 0 := by
    have := (List.mem_filter.mp hg0mem).2
    simpa using this
  have hg0store : g0 ∈ store := (List.mem_filter.mp hg0mem).1
  obtain ⟨r0, hr0⟩ : ∃ a, store.find? (fun row => row.id == g0.id) = some a :=
    Option.isSome_iff_exists.mp
      (List.find?_isSome.mpr ⟨g0, hg0store, by simp⟩)
  have hr0id : r0.id = g0.id := by
    have := List.find?_some hr0
    simpa using this
  refine ⟨?_, ?_, hg0neg⟩
  · simp only [db_insert_guest, h, dbInsert, hr0]
    rfl
  · simp only [db_insert_guest, h, dbInsert, hr0]
    exact hr0id

/-- C2: the guest resolver queries the store's negative-id users, matches
    the name exactly among them and returns the found id with the store
    unchanged; otherwise it allocates min(0, min negative ids) - 1, inserts
    a row with that id and the name, and returns it. Hence two calls with
    the same name return the same negative id, two fresh names on an empty
    guest set yield -1 then -2, and a fresh allocation collides with no
    existing row id. -/
theorem c2_guest_resolver :
    (∀ (name : String) (store : List UserRow) (g0 : UserRow),
        (store.filter (fun row => row.id < 0)).find?
            (fun row => row.name == name) = some g0 →
        mgr_insert_guest name store = (g0.id, store))
    ∧ (∀ (name : String) (store : List UserRow),
        (store.filter (fun row => row.id < 0)).find?
            (fun row => row.name == name) = none →
        mgr_insert_guest name store
          = (guestNewId store,
             store ++ [{ id := guestNewId store, name := name }]))
    ∧ (∀ (name : String) (store : List UserRow),
        (mgr_insert_guest name ((mgr_insert_guest name store).2)).1
            = (mgr_insert_guest name store).1
        ∧ (mgr_insert_guest name store).1 < 0)
    ∧ (∀ store : List UserRow, (∀ r ∈ store, 0 ≤ r.id) →
        ∀ n1 n2 : String, ¬ n1 = n2 →
          (mgr_insert_guest n1 store).1 = -1
          ∧ (mgr_insert_guest n2 ((mgr_insert_guest n1 store).2)).1 = -2)
    ∧ (∀ (name : String) (store : List UserRow),
        (store.filter (fun row => row.id < 0)).find?
            (fun row => row.name == name) = none →
        (∀ r ∈ store, r.id ≠ (mgr_insert_guest name store).1)
        ∧ (mgr_insert_guest name store).1 < 0) := by
  have hfound : ∀ (name : String) (store : List UserRow) (g0 : UserRow),
      (store.filter (fun row => row.id < 0)).find?
          (fun row => row.name == name) = some g0 →
      mgr_insert_guest name store = (g0.id, store) := by
    intro name store g0 h
    have h1 := db_insert_guest_of_find?_some ⟨-1, name⟩ g0 store h
    have : mgr_insert_guest name store
        = ((db_insert_guest ⟨-1, name⟩ store).1.id,
           (db_insert_guest ⟨-1, name⟩ store).2) := rfl
    rw [this, h1.1, h1.2.1]
  have hfresh : ∀ (name : String) (store : List UserRow),
      (store.filter (fun row => row.id < 0)).find?
          (fun row => row.name == name) = none →
      mgr_insert_guest name store
        = (guestNewId store,
           store ++ [{ id := guestNewId store, name := name }]) := by
    intro name store h
    have h1 := db_insert_guest_of_find?_none ⟨-1, name⟩ store h
    have h2 : mgr_insert_guest name store
        = ((db_insert_guest ⟨-1, name⟩ store).1.id,
           (db_insert_guest ⟨-1, name⟩ store).2) := rfl
    rw [h2, h1]
  refine ⟨hfound, hfresh, ?_, ?_, ?_⟩
  · intro name store
    cases hf : (store.filter (fun row => row.id < 0)).find?
        (fun row => row.name == name) with
    | some g0 =>
        have h1 := hfound name store g0 hf
        have hg0neg :=
          (db_insert_guest_of_find?_some ⟨-1, name⟩ g0 store hf).2.2
        constructor
        · simp [h1]
        · simp only [h1]
          exact hg0neg
    | none =>
        have h1 := hfresh name store hf
        have hneg : guestNewId store < 0 := guestNewId_neg store
        have hfilter : (store
              ++ [({ id := guestNewId store, name := name } : UserRow)]).filter
            (fun row => row.id < 0)
            = store.filter (fun row => row.id < 0)
              ++ [({ id := guestNewId store, name := name } : UserRow)] := by
          rw [List.filter_append]
          congr 1
          simp [hneg]
        have hfind2 : ((store
              ++ [({ id := guestNewId store, name := name } : UserRow)]).filter
            (fun row => row.id < 0)).find? (fun row => row.name == name)
            = some ({ id := guestNewId store, name := name } : UserRow) := by
          rw [hfilter, List.find?_append, hf]
          simp
        have h2 := hfound name
          (store ++ [({ id := guestNewId store, name := name } : UserRow)])
          ({ id := guestNewId store, name := name } : UserRow) hfind2
        constructor
        · simp [h1, h2]
        · simp only [h1]
          exact hneg
  · intro store hpos n1 n2 hne
    have hfilterNil : store.filter (fun row => row.id < 0) = [] := by
      rw [List.filter_eq_nil_iff]
      intro a ha
      have := hpos a ha
      simp only [decide_eq_true_eq]
      omega
    have hnid : guestNewId store = -1 := by
      unfold guestNewId
      rw [hfilterNil]
      rfl
    have h1 := hfresh n1 store (by rw [hfilterNil]; rfl)
    rw [hnid] at h1
    have hfilter2 : (store ++ [({ id := -1, name := n1 } : UserRow)]).filter
        (fun row => row.id < 0) = [({ id := -1, name := n1 } : UserRow)] := by
      rw [List.filter_append, hfilterNil]
      rfl
    have hfind2 : ((store ++ [({ id := -1, name := n1 } : UserRow)]).filter
        (fun row => row.id < 0)).find? (fun row => row.name == n2)
        = none := by
      rw [hfilter2]
      simp [hne]
    have h2 := hfresh n2 (store ++ [({ id := -1, name := n1 } : UserRow)])
      hfind2
    have hnid2 : guestNewId (store ++ [({ id := -1, name := n1 } : UserRow)])
        = -2 := by
      unfold guestNewId
      rw [hfilter2]
      rfl
    rw [hnid2] at h2
    constructor
    · rw [h1]
    · simp [h1, h2]
  · intro name store h
    have h1 := hfresh name store h
    constructor
    · intro r hr
      simp only [h1]
      exact guestNewId_not_mem store r hr
    · simp only [h1]
      exact guestNewId_neg store

/-- C2 witness: resolving two fresh names against an empty store yields
    ids -1 then -2, via the theorem with its hypotheses discharged. -/
theorem c2_guest_resolver_witness :
    (mgr_insert_guest "a" ([] : List UserRow)).1 = -1
    ∧ (mgr_insert_guest "b" ((mgr_insert_guest "a"
        ([] : List UserRow)).2)).1 = -2 :=
  c2_guest_resolver.2.2.2.1 [] (by intro r hr; cases hr) "a" "b" (by decide)

/-- C9: Database.insert_guest overwrites the incoming id in both branches,
    so the result never depends on it (ScraperManager always passes -1) and
    the returned row id is strictly negative for every input. -/
theorem c9_guest_ids_negative :
    ∀ (store : List UserRow) (inputId : Int) (name : String),
      (db_insert_guest { id := inputId, name := name } store).1.id < 0
      ∧ db_insert_guest { id := inputId, name := name } store
          = db_insert_guest { id := -1, name := name } store
      ∧ (mgr_insert_guest name store).1 < 0 := by
  intro store inputId name
  have hneg : ∀ i : Int,
      (db_insert_guest { id := i, name := name } store).1.id < 0 := by
    intro i
    cases hf : (store.filter (fun row => row.id < 0)).find?
        (fun row => row.name == name) with
    | some g0 =>
        have h1 := db_insert_guest_of_find?_some ⟨i, name⟩ g0 store hf
        rw [h1.2.1]
        exact h1.2.2
    | none =>
        have h1 := db_insert_guest_of_find?_none ⟨i, name⟩ store hf
        rw [h1]
        exact guestNewId_neg store
  exact ⟨hneg inputId, rfl, hneg (-1)⟩

/-! ## C1 / C10: the persistence consumer -/

theorem drainLoop_sentinel {α : Type} (pre : List α)
    (rest : List (Option α)) :
    drainLoop (pre.map some ++ none :: rest) = (pre, true) := by
  induction pre with
  | nil => rfl
  | cons a as ih => simp [drainLoop, ih]

theorem runConsumer_eq (pre : List UserRow) (urest : List (Option UserRow))
    (cpre : List CItem) (crest : List (Option CItem))
    (driver : Option Unit) :
    runConsumer (some (pre.map some ++ none :: urest))
        (cpre.map some ++ none :: crest) driver
      = (pre.map Event.userInsert ++ cpre.map Event.contentInsert
          ++ shutdownEvents driver, shutdownOutcome driver) := by
  cases driver <;>
    simp [runConsumer, drainLoop_sentinel, shutdownEvents, shutdownOutcome]

theorem runConsumer_skip_users (cpre : List CItem)
    (crest : List (Option CItem)) (driver : Option Unit) :
    runConsumer none (cpre.map some ++ none :: crest) driver
      = (cpre.map Event.contentInsert ++ shutdownEvents driver,
         shutdownOutcome driver) := by
  unfold runConsumer
  rw [drainLoop_sentinel]
  cases driver <;> simp [shutdownEvents, shutdownOutcome]

/-- C1: with a user queue configured, the consumer inserts every user popped
    before the user sentinel, in order, before dispatching any content item;
    the user phase ends exactly at the sentinel; with no user queue the
    content queue is processed directly; consequently every queued user's
    insert call precedes every queued content item's insert call. -/
theorem c1_users_before_content :
    ∀ (pre : List UserRow) (urest : List (Option UserRow))
      (cpre : List CItem) (crest : List (Option CItem))
      (driver : Option Unit),
      runConsumer (some (pre.map some ++ none :: urest))
          (cpre.map some ++ none :: crest) driver
        = (pre.map Event.userInsert ++ cpre.map Event.contentInsert
            ++ shutdownEvents driver, shutdownOutcome driver)
      ∧ runConsumer none (cpre.map some ++ none :: crest) driver
        = (cpre.map Event.contentInsert ++ shutdownEvents driver,
           shutdownOutcome driver)
      ∧ (∀ u ∈ pre, ∀ c ∈ cpre,
          precedesIn (Event.userInsert u) (Event.contentInsert c)
            (runConsumer (some (pre.map some ++ none :: urest))
              (cpre.map some ++ none :: crest) driver).1) := by
  intro pre urest cpre crest driver
  refine ⟨runConsumer_eq pre urest cpre crest driver,
    runConsumer_skip_users cpre crest driver, ?_⟩
  intro u hu c hc
  obtain ⟨p1, p2, rfl⟩ := List.append_of_mem hu
  refine ⟨p1.map Event.userInsert,
    p2.map Event.userInsert ++ cpre.map Event.contentInsert
      ++ shutdownEvents driver, ?_, ?_⟩
  · rw [runConsumer_eq]
    simp
  · exact List.mem_append.mpr (Or.inl (List.mem_append.mpr
      (Or.inr (List.mem_map_of_mem _ hc))))

/-- C1 witness: the ordering at a one-user, one-content-item instance, with
    the membership hypotheses discharged there. -/
theorem c1_users_before_content_witness :
    precedesIn (Event.userInsert { id := 1, name := "x" })
      (Event.contentInsert (CItem.category { id := 2, name := "c" }))
      (runConsumer
        (some ([{ id := 1, name := "x" }].map some ++ none :: []))
        ([CItem.category { id := 2, name := "c" }].map some ++ none :: [])
        (some ())).1 :=
  (c1_users_before_content [{ id := 1, name := "x" }] []
      [CItem.category { id := 2, name := "c" }] [] (some ())).2.2
    { id := 1, name := "x" } (by simp)
    (CItem.category { id := 2, name := "c" }) (by simp)

/-- C10: construction accepts a missing driver with only a warning, but
    after both sentinels the shutdown closes the HTTP session and then the
    unconditional driver.quit() raises on the missing driver; the run
    completes without error exactly when a driver was supplied. -/
theorem c10_driver_required :
    ∀ (pre : List UserRow) (urest : List (Option UserRow))
      (cpre : List CItem) (crest : List (Option CItem)),
      mkManagerDriver none
        = (none,
           ["Polls cannot be scraped without setting a Chrome webdriver"])
      ∧ runConsumer (some (pre.map some ++ none :: urest))
          (cpre.map some ++ none :: crest) none
        = (pre.map Event.userInsert ++ cpre.map Event.contentInsert
            ++ [Event.sessionClose], RunOutcome.attrErrorDriverQuit)
      ∧ (∀ d : Unit,
          (runConsumer (some (pre.map some ++ none :: urest))
            (cpre.map some ++ none :: crest) (some d)).2
            = RunOutcome.completed) := by
  intro pre urest cpre crest
  refine ⟨rfl, ?_, ?_⟩
  · rw [runConsumer_eq]
    rfl
  · intro d
    rw [runConsumer_eq]
    rfl

/-! ## C6: the rate limiter -/

/-- C6 counterexample: the claim says every configuration with null
    parameters still completes each request without error, but with
    short_delay null and long_delay set, the very first request reaches
    asyncio.sleep(None), a TypeError. -/
theorem c6_null_short_delay_counterexample :
    getSourceStep (some 15) none (some 20) 0
      = Except.error DelayErr.typeErrorSleepNone := by
  rfl

/-- C6 amended: with all three parameters non-null (threshold nonzero, long
    delay nonzero) the waited delay is long_delay exactly when
    count mod threshold = threshold - 1 and short_delay otherwise, and the
    counter increments once per request; a null threshold or a null long
    delay each independently disable the long delay; short and long both
    null disable all delay; but a null short delay alone, with a long delay
    set, raises TypeError on every request where the long-delay condition
    fails. download_image rate-limits only target-site URLs. -/
theorem c6_rate_limiter_amended :
    (∀ (t : Int) (s l : Rat) (count : Nat), ¬ t = 0 → ¬ l = 0 →
        getSourceStep (some t) (some s) (some l) count
          = Except.ok (some (if Int.fmod count t == t - 1 then l else s),
              count + 1))
    ∧ (∀ (l : Option Rat) (s : Rat) (count : Nat), ¬ s = 0 →
        getSourceStep none (some s) l count = Except.ok (some s, count + 1))
    ∧ (∀ (t : Option Int) (s : Rat) (count : Nat), ¬ s = 0 →
        getSourceStep t (some s) none count = Except.ok (some s, count + 1))
    ∧ (∀ (t : Option Int) (count : Nat),
        getSourceStep t none none count = Except.ok (none, count + 1))
    ∧ (∀ (t : Int) (l : Rat) (count : Nat), ¬ t = 0 → ¬ l = 0 →
        ¬ Int.fmod count t = t - 1 →
        getSourceStep (some t) none (some l) count
          = Except.error DelayErr.typeErrorSleepNone)
    ∧ (∀ (t : Option Int) (s l : Option Rat) (count : Nat) (url : String),
        strContains url "proboards.com" = false →
        downloadImageStep t s l count url = Except.ok (none, count))
    ∧ (∀ (t : Option Int) (s l : Option Rat) (count : Nat) (url : String),
        strContains url "proboards.com" = true →
        downloadImageStep t s l count url = getSourceStep t s l count) := by
  refine ⟨?_, ?_, ?_, ?_, ?_, ?_, ?_⟩
  · intro t s l count ht hl
    have hlt : pyTruthy (some l) = true := by simp [pyTruthy, hl]
    by_cases hmod : Int.fmod count t == t - 1 <;>
      simp [getSourceStep, pyDelay, hlt, ht, hmod, Except.map]
  · intro l s count hs
    have hst : pyTruthy (some s) = true := by simp [pyTruthy, hs]
    simp [getSourceStep, pyDelay, hst, Except.map]
  · intro t s count hs
    have hst : pyTruthy (some s) = true := by simp [pyTruthy, hs]
    cases t <;> simp [getSourceStep, pyDelay, hst, hs, pyTruthy, Except.map]
  · intro t count
    simp [getSourceStep, pyDelay, pyTruthy, Except.map]
  · intro t l count ht hl hmod
    have hl2 : (l == 0) = false := by simp [hl]
    simp [getSourceStep, pyDelay, pyTruthy, ht, hl, hl2, hmod, Except.map]
  · intro t s l count url h
    simp [downloadImageStep, h]
  · intro t s l count url h
    simp [downloadImageStep, h]

/-- C6 witness: the amended delay formula at a concrete configuration
    (threshold 15, short 3/2, long 20) on the first request, hypotheses
    discharged there. -/
theorem c6_rate_limiter_amended_witness :
    getSourceStep (some 15) (some (3 / 2)) (some 20) 0
      = Except.ok (some (3 / 2), 1) := by
  have h := c6_rate_limiter_amended.1 15 (3 / 2) 20 0
    (by norm_num) (by norm_num)
  simpa using h

/-! ## C7: download_image never raises and degrades gracefully -/

/-- C7: download_image always returns (the return in the finally clause
    swallows every exception): a connection failure, or any uncaught error
    such as a timeout, yields the initialized result whose image metadata
    keeps the (scheme-completed) source URL with null filename, md5 hash
    and size, and writes nothing; a successful download of a detected image
    format names the file md5hex.ext with the extension derived from the
    detected format (jpeg mapped to jpg), records hash and size, and writes
    the file only when no file of that name exists on disk. -/
theorem c7_download_image_degrades :
    (∀ (md5hex : List Nat → String)
        (builtinTests : List Nat → Option String) (dstDir : List String)
        (url : String) (net : NetResult),
        net = NetResult.connError ∨ net = NetResult.uncaughtExn →
        download_image md5hex builtinTests dstDir url net
          = ({ status := { get := none, existsOnDisk := none, valid := none },
               image := { url := completeUrl url, filename := none,
                          md5_hash := none, size := none } }, []))
    ∧ (∀ url : String, url.startsWith "//" = false → completeUrl url = url)
    ∧ (∀ (md5hex : List Nat → String)
        (builtinTests : List Nat → Option String) (dstDir : List String)
        (url : String) (body : List Nat) (ft : String),
        imghdrWhat builtinTests body = some ft →
        (download_image md5hex builtinTests dstDir url
            (NetResult.resp 200 body)).1.image.filename
          = some (md5hex body ++ "."
              ++ (if ft == "jpeg" then "jpg" else ft))
        ∧ (download_image md5hex builtinTests dstDir url
            (NetResult.resp 200 body)).1.image.md5_hash
          = some (md5hex body)
        ∧ (download_image md5hex builtinTests dstDir url
            (NetResult.resp 200 body)).1.image.size = some body.length
        ∧ (download_image md5hex builtinTests dstDir url
            (NetResult.resp 200 body)).1.status.valid = some true
        ∧ (dstDir.contains (md5hex body ++ "."
              ++ (if ft == "jpeg" then "jpg" else ft)) = true →
            (download_image md5hex builtinTests dstDir url
              (NetResult.resp 200 body)).2 = [])
        ∧ (dstDir.contains (md5hex body ++ "."
              ++ (if ft == "jpeg" then "jpg" else ft)) = false →
            (download_image md5hex builtinTests dstDir url
              (NetResult.resp 200 body)).2
              = [(md5hex body ++ "."
                  ++ (if ft == "jpeg" then "jpg" else ft), body)])) := by
  refine ⟨?_, ?_, ?_⟩
  · rintro md5hex builtinTests dstDir url net (rfl | rfl) <;> rfl
  · intro url h
    unfold completeUrl
    simp [h]
  · intro md5hex builtinTests dstDir url body ft hft
    by_cases hjp : ft = "jpeg"
    · subst hjp
      by_cases hex : md5hex body ++ "." ++ "jpg" ∈ dstDir <;>
        simp [download_image, hft, hex]
    · by_cases hex : md5hex body ++ "." ++ ft ∈ dstDir <;>
        simp [download_image, hft, hjp, hex]

/-- C7 witness: the failure-path and success-path conclusions at concrete
    inputs (an ico header detected by the repository's own test_ico check),
    hypotheses discharged there. -/
theorem c7_download_image_degrades_witness :
    download_image (fun _ => "h") (fun _ => none) [] "u" NetResult.connError
      = ({ status := { get := none, existsOnDisk := none, valid := none },
           image := { url := "u", filename := none, md5_hash := none,
                      size := none } }, [])
    ∧ (download_image (fun _ => "h") (fun _ => none) [] "u"
        (NetResult.resp 200 [0, 0, 1, 0])).1.image.filename
      = some "h.ico" := by
  constructor
  · have h := c7_download_image_degrades.1 (fun _ => "h") (fun _ => none)
      [] "u" NetResult.connError (Or.inl rfl)
    simpa using h
  · have h := (c7_download_image_degrades.2.2 (fun _ => "h") (fun _ => none)
      [] "u" [0, 0, 1, 0] "ico" (by rfl)).1
    simpa using h

/-! ## C3 / C8: thread traversal emission order -/

theorem postsFor_all_post (site_url : String) (thread_id : Int) :
    ∀ (es : List PostEntry) (st : PostLoopSt),
      ∀ e ∈ (postsFor site_url thread_id es st).1, ∃ p, e = CItem.post p := by
  intro es
  induction es with
  | nil =>
      intro st e he
      simp [postsFor] at he
  | cons a as ih =>
      intro st e he
      simp only [postsFor] at he
      by_cases hd : st.cur.nextDisabled = true
      · simp only [hd, if_true] at he
        rcases List.mem_cons.mp he with rfl | hmem
        · exact ⟨_, rfl⟩
        · exact ih _ e hmem
      · simp only [hd, if_false] at he
        cases hrest : st.rest with
        | nil =>
            simp only [hrest] at he
            rcases List.mem_singleton.mp he with rfl
            exact ⟨_, rfl⟩
        | cons p ps =>
            simp only [hrest] at he
            rcases List.mem_cons.mp he with rfl | hmem
            · exact ⟨_, rfl⟩
            · exact ih _ e hmem

theorem postsWhile_all_post (site_url : String) (thread_id : Int) :
    ∀ (fuel : Nat) (st : PostLoopSt),
      ∀ e ∈ (postsWhile site_url thread_id fuel st).1,
        ∃ p, e = CItem.post p := by
  intro fuel
  induction fuel with
  | zero =>
      intro st e he
      simp [postsWhile] at he
  | succ n ih =>
      intro st e he
      simp only [postsWhile] at he
      by_cases hpr : st.pagesRemaining = false
      · simp [hpr] at he
      · simp only [hpr, if_false] at he
        by_cases hem : st.cur.posts.isEmpty = true
        · simp [hem] at he
        · simp only [hem, if_false] at he
          by_cases hok : (postsFor site_url thread_id st.cur.posts st).2.2
              = false
          · simp only [hok, if_true] at he
            exact postsFor_all_post site_url thread_id _ _ e he
          · simp only [hok, if_false] at he
            rcases List.mem_append.mp he with hmem | hmem
            · exact postsFor_all_post site_url thread_id _ _ e hmem
            · exact ih _ e hmem

/-- C3 counterexample: for a thread containing a poll, the code pushes the
    poll data first and the Thread record only afterwards, so the claim
    that the Thread record precedes its poll data is false at this input. -/
theorem c3_thread_before_poll_counterexample :
    (scrapeThread true pollThreadInput []).1
      = [CItem.poll { id := 7, name := "Q" },
         CItem.pollOption { id := 9, poll_id := 7, name := "A", votes := 1 },
         CItem.pollVoter { poll_id := 7, user_id := 4 },
         CItem.thread (threadRecOf pollThreadInput),
         CItem.post { id := 11, date := "d", edit_user_id := none,
                      last_edited := none, message := "m", thread_id := 7,
                      url := "s/post/11", user_id := 3 }]
    ∧ ¬ ((scrapeThread true pollThreadInput []).1.indexOf
          (CItem.thread (threadRecOf pollThreadInput))
        < (scrapeThread true pollThreadInput []).1.indexOf
          (CItem.poll { id := 7, name := "Q" })) := by
  constructor
  · decide
  · decide

/-- C3 amended: when scrape_thread reaches the thread dict (registered
    creator, driver present when a poll exists, nonempty post-page chain),
    the Thread record is pushed before all of the thread's Post records,
    and a poll's record is pushed before its options, which precede its
    voters; but the poll data is pushed before the Thread record, not
    after it. -/
theorem c3_thread_emission_order_amended (hasDriver : Bool)
    (t : ThreadInput) (store : List UserRow)
    (h1 : ¬ t.created_by = 0)
    (h2 : t.poll.isSome = true → hasDriver = true)
    (h3 : ¬ t.pages = []) :
    (∀ (tid : Int) (p : PollInput), scrapePoll tid p
        = [CItem.poll { id := tid, name := p.name }]
          ++ p.options.map (fun o => CItem.pollOption
              { id := o.id, poll_id := tid, name := o.name,
                votes := o.votes })
          ++ p.voters.map (fun v => CItem.pollVoter
              { poll_id := tid, user_id := v }))
    ∧ ∃ postEms store2 out,
        scrapeThread hasDriver t store
          = (pollEmsOf t ++ [CItem.thread (threadRecOf t)] ++ postEms,
             store2, out)
        ∧ ∀ e ∈ postEms, ∃ p, e = CItem.post p := by
  refine ⟨fun tid p => rfl, ?_⟩
  have hb : (t.created_by == 0) = false := by simp [h1]
  cases hpages : t.pages with
  | nil => exact absurd hpages h3
  | cons cur rest =>
      cases hpoll : t.poll with
      | none =>
          refine ⟨(postsWhile t.site_url t.id (rest.length + 2)
              { cur := cur, rest := rest, pagesRemaining := true,
                store := store }).1,
            (postsWhile t.site_url t.id (rest.length + 2)
              { cur := cur, rest := rest, pagesRemaining := true,
                store := store }).2.1,
            (postsWhile t.site_url t.id (rest.length + 2)
              { cur := cur, rest := rest, pagesRemaining := true,
                store := store }).2.2, ?_, ?_⟩
          · simp [scrapeThread, hb, hpoll, hpages, pollEmsOf]
          · intro e he
            exact postsWhile_all_post t.site_url t.id _ _ e he
      | some p =>
          have hD : hasDriver = true := h2 (by rw [hpoll]; rfl)
          refine ⟨(postsWhile t.site_url t.id (rest.length + 2)
              { cur := cur, rest := rest, pagesRemaining := true,
                store := store }).1,
            (postsWhile t.site_url t.id (rest.length + 2)
              { cur := cur, rest := rest, pagesRemaining := true,
                store := store }).2.1,
            (postsWhile t.site_url t.id (rest.length + 2)
              { cur := cur, rest := rest, pagesRemaining := true,
                store := store }).2.2, ?_, ?_⟩
          · simp [scrapeThread, hb, hpoll, hpages, hD, pollEmsOf]
          · intro e he
            exact postsWhile_all_post t.site_url t.id _ _ e he

/-- C3 witness: the amended ordering at the concrete poll thread, with the
    hypotheses discharged there. -/
theorem c3_thread_emission_order_amended_witness :
    ∃ postEms store2 out,
      scrapeThread true pollThreadInput []
        = (pollEmsOf pollThreadInput
            ++ [CItem.thread (threadRecOf pollThreadInput)] ++ postEms,
           store2, out)
      ∧ ∀ e ∈ postEms, ∃ p, e = CItem.post p :=
  (c3_thread_emission_order_amended true pollThreadInput [] (by decide)
    (fun _ => rfl) (by decide)).2

/-- C8: the spec's pagination scenario fails on the post listing: for the
    two-page thread (page 1: posts 101 and 102, next enabled; page 2: post
    103, next disabled) the traversal terminates normally but emits only
    posts 101 and 102 — the next-page check sits inside the for loop over
    posts, so page 2 replaces the held container mid-iteration and its
    posts are never iterated. -/
theorem c8_post_pagination_loses_posts :
    (scrapeThread true twoPageThreadInput []).1
      = [CItem.thread (threadRecOf twoPageThreadInput),
         CItem.post (mkPostRec 101), CItem.post (mkPostRec 102)]
    ∧ (scrapeThread true twoPageThreadInput []).2.2 = SOutcome.ok
    ∧ CItem.post (mkPostRec 103)
        ∉ (scrapeThread true twoPageThreadInput []).1 := by
  refine ⟨?_, ?_, ?_⟩
  · decide
  · decide
  · decide

/-! ## C4: board traversal emission order -/

theorem seqEms_fst_prefix (r : List CItem × List UserRow × SOutcome)
    (k : List UserRow → List CItem × List UserRow × SOutcome) :
    ∃ t, (seqEms r k).1 = r.1 ++ t := by
  rcases r with ⟨ems, store, o⟩
  cases o with
  | ok => exact ⟨(k store).1, rfl⟩
  | raised => exact ⟨[], by simp [seqEms]⟩
  | loops => exact ⟨[], by simp [seqEms]⟩

/-- C4 counterexample: for a board listing a moderator, the code pushes the
    moderator record first and the Board record only afterwards, so the
    claim that the Board record precedes its Moderator records is false at
    this input. -/
theorem c4_board_before_moderator_counterexample :
    (scrapeBoardT true modBoardTree []).1
      = [CItem.moderator { user_id := 7, board_id := 3 },
         CItem.board modBoardInfo]
    ∧ ¬ ((scrapeBoardT true modBoardTree []).1.indexOf
          (CItem.board modBoardInfo)
        < (scrapeBoardT true modBoardTree []).1.indexOf
          (CItem.moderator { user_id := 7, board_id := 3 })) := by
  constructor
  · decide
  · decide

/-- C4 amended: scrape_board pushes a board's Moderator records first, then
    the Board record, then everything emitted for its sub-boards and its
    threads; in the A - B - C sub-board chain the emission order is A's
    board record, then B's, then C's. -/
theorem c4_board_emission_order_amended (hasDriver : Bool) (info : BoardRec)
    (modsLink : Option (List Int)) (subs : BoardForest)
    (pages : List ThreadListPage) (store : List UserRow)
    (hm : modsLink.isSome = true → hasDriver = true) :
    (∃ rest,
      (scrapeBoardT hasDriver
          (BoardTree.node info modsLink subs pages) store).1
        = modItems info modsLink ++ [CItem.board info] ++ rest)
    ∧ (∀ (a b c : BoardRec) (store0 : List UserRow),
        scrapeBoardT true (chainBoardTree a b c) store0
          = ([CItem.board a, CItem.board b, CItem.board c], store0,
             SOutcome.ok)) := by
  refine ⟨?_, fun a b c store0 => rfl⟩
  cases modsLink with
  | none =>
      obtain ⟨t1, h1⟩ := seqEms_fst_prefix
        (([] ++ [CItem.board info], store, SOutcome.ok))
        (fun s => scrapeForest hasDriver subs s)
      obtain ⟨t2, h2⟩ := seqEms_fst_prefix
        (seqEms ([] ++ [CItem.board info], store, SOutcome.ok)
          (fun s => scrapeForest hasDriver subs s))
        (fun s => boardPagesLoop hasDriver pages s)
      refine ⟨t1 ++ t2, ?_⟩
      show (seqEms (seqEms ([] ++ [CItem.board info], store, SOutcome.ok)
          (fun s => scrapeForest hasDriver subs s))
          (fun s => boardPagesLoop hasDriver pages s)).1
        = modItems info none ++ [CItem.board info] ++ (t1 ++ t2)
      rw [h2, h1]
      simp [modItems]
  | some l =>
      have hD : hasDriver = true := hm rfl
      subst hD
      obtain ⟨t1, h1⟩ := seqEms_fst_prefix
        ((l.map (fun u =>
            CItem.moderator { user_id := u, board_id := info.id })
          ++ [CItem.board info], store, SOutcome.ok))
        (fun s => scrapeForest true subs s)
      obtain ⟨t2, h2⟩ := seqEms_fst_prefix
        (seqEms (l.map (fun u =>
            CItem.moderator { user_id := u, board_id := info.id })
          ++ [CItem.board info], store, SOutcome.ok)
          (fun s => scrapeForest true subs s))
        (fun s => boardPagesLoop true pages s)
      refine ⟨t1 ++ t2, ?_⟩
      show (seqEms (seqEms (l.map (fun u =>
            CItem.moderator { user_id := u, board_id := info.id })
          ++ [CItem.board info], store, SOutcome.ok)
          (fun s => scrapeForest true subs s))
          (fun s => boardPagesLoop true pages s)).1
        = modItems info (some l) ++ [CItem.board info] ++ (t1 ++ t2)
      rw [h2, h1]
      simp [modItems]

/-- C4 witness: the amended structure at the concrete moderated board, with
    the hypothesis discharged there. -/
theorem c4_board_emission_order_amended_witness :
    ∃ rest,
      (scrapeBoardT true modBoardTree []).1
        = modItems modBoardInfo (some [7]) ++ [CItem.board modBoardInfo]
          ++ rest :=
  (c4_board_emission_order_amended true modBoardInfo (some [7])
    BoardForest.nil [] [] (fun _ => rfl)).1

end PBS
